import Mathlib

/-!
Verification development for the Jupyter kernel client runtime of the `jute`
repository (directory `src/src-tauri/src`).  The Rust sources are shallowly
embedded: pure functions become Lean functions, byte strings become lists of
naturals, fallible code returns `Option`, and Rust operations that can panic
(such as out-of-bounds indexing) are modelled in an explicit `RustResult`
wrapper.  External crates at the serialization boundary (`serde_json`, UTF-8
handling from `std`, `hmac`/`sha2`, and the `time` crate's ISO-8601 dates) are
modelled by concrete executable stand-ins or explicit parameters, as noted at
each definition.
-/

namespace Jute

/-- Bytes are modelled as naturals (values below 256 in all real payloads). -/
abbrev Byte := Nat

/-- A single ZeroMQ frame, or any byte string (Rust `Bytes` / `Vec<u8>`). -/
abbrev Frame := List Byte

/-- Model of `serde_json::Value`.  Integral numbers are carried exactly;
non-integral numbers are kept as their opaque source text (`fnum`), since no
code under verification inspects them.  Objects are association lists in
insertion order. -/
inductive Value where
  | null : Value
  | bool (b : Bool) : Value
  | int (n : Int) : Value
  | fnum (text : String) : Value
  | str (s : String) : Value
  | arr (items : List Value) : Value
  | obj (fields : List (String × Value)) : Value

/-- First value bound to a key in a JSON object, the lookup used by the
serde-derived struct deserializers (objects built by this development never
contain duplicate keys). -/
def getField (fields : List (String × Value)) (key : String) : Option Value :=
  match fields with
  | [] => none
  | (k, v) :: rest => if k = key then some v else getField rest key

/-- Model of `KernelMessageType` from `backend/wire_protocol.rs`: the serde
representation is `rename_all = "snake_case"` with an untagged `Other(String)`
fallback variant. -/
inductive KernelMessageType where
  | executeRequest
  | executeReply
  | inspectRequest
  | inspectReply
  | completeRequest
  | completeReply
  | historyRequest
  | historyReply
  | isCompleteRequest
  | isCompleteReply
  | commInfoRequest
  | commInfoReply
  | kernelInfoRequest
  | kernelInfoReply
  | shutdownRequest
  | shutdownReply
  | interruptRequest
  | interruptReply
  | debugRequest
  | debugReply
  | stream
  | displayData
  | updateDisplayData
  | executeInput
  | executeResult
  | error
  | status
  | clearOutput
  | debugEvent
  | other (tag : String)
deriving DecidableEq

/-- Serialization of `KernelMessageType` (serde `snake_case` tags; the
untagged `Other` variant serializes as its inner string). -/
def msgTypeToString : KernelMessageType → String
  | .executeRequest => "execute_request"
  | .executeReply => "execute_reply"
  | .inspectRequest => "inspect_request"
  | .inspectReply => "inspect_reply"
  | .completeRequest => "complete_request"
  | .completeReply => "complete_reply"
  | .historyRequest => "history_request"
  | .historyReply => "history_reply"
  | .isCompleteRequest => "is_complete_request"
  | .isCompleteReply => "is_complete_reply"
  | .commInfoRequest => "comm_info_request"
  | .commInfoReply => "comm_info_reply"
  | .kernelInfoRequest => "kernel_info_request"
  | .kernelInfoReply => "kernel_info_reply"
  | .shutdownRequest => "shutdown_request"
  | .shutdownReply => "shutdown_reply"
  | .interruptRequest => "interrupt_request"
  | .interruptReply => "interrupt_reply"
  | .debugRequest => "debug_request"
  | .debugReply => "debug_reply"
  | .stream => "stream"
  | .displayData => "display_data"
  | .updateDisplayData => "update_display_data"
  | .executeInput => "execute_input"
  | .executeResult => "execute_result"
  | .error => "error"
  | .status => "status"
  | .clearOutput => "clear_output"
  | .debugEvent => "debug_event"
  | .other tag => tag

/-- Deserialization of `KernelMessageType` from a JSON string: serde first
tries the snake_case unit-variant tags, then falls back to the untagged
`Other(String)` variant, so every string succeeds. -/
def msgTypeFromString (s : String) : KernelMessageType :=
  if s = "execute_request" then .executeRequest
  else if s = "execute_reply" then .executeReply
  else if s = "inspect_request" then .inspectRequest
  else if s = "inspect_reply" then .inspectReply
  else if s = "complete_request" then .completeRequest
  else if s = "complete_reply" then .completeReply
  else if s = "history_request" then .historyRequest
  else if s = "history_reply" then .historyReply
  else if s = "is_complete_request" then .isCompleteRequest
  else if s = "is_complete_reply" then .isCompleteReply
  else if s = "comm_info_request" then .commInfoRequest
  else if s = "comm_info_reply" then .commInfoReply
  else if s = "kernel_info_request" then .kernelInfoRequest
  else if s = "kernel_info_reply" then .kernelInfoReply
  else if s = "shutdown_request" then .shutdownRequest
  else if s = "shutdown_reply" then .shutdownReply
  else if s = "interrupt_request" then .interruptRequest
  else if s = "interrupt_reply" then .interruptReply
  else if s = "debug_request" then .debugRequest
  else if s = "debug_reply" then .debugReply
  else if s = "stream" then .stream
  else if s = "display_data" then .displayData
  else if s = "update_display_data" then .updateDisplayData
  else if s = "execute_input" then .executeInput
  else if s = "execute_result" then .executeResult
  else if s = "error" then .error
  else if s = "status" then .status
  else if s = "clear_output" then .clearOutput
  else if s = "debug_event" then .debugEvent
  else .other s

/-- Deserialization of `KernelMessageType` from a JSON value: only strings are
accepted (both the tagged variants and the untagged `Other(String)` expect a
string). -/
def msgTypeFromValue : Value → Option KernelMessageType
  | .str s => some (msgTypeFromString s)
  | _ => none

/-- Model of `KernelHeader` from `backend/wire_protocol.rs`.  The `date` field
(`time::OffsetDateTime`, serialized `with time::serde::iso8601`) is modelled by
its ISO-8601 string rendering; nothing under verification inspects it. -/
structure KernelHeader where
  msg_id : String
  session : String
  username : String
  date : String
  msg_type : KernelMessageType
  version : String
deriving DecidableEq

/-- Model of `KernelMessage` (with `T = serde_json::Value`, the wire form). -/
structure KernelMessage where
  header : KernelHeader
  parent_header : Option KernelHeader
  content : Value
  buffers : List Frame

/-- Serde serialization of `KernelHeader` as a JSON value (fields in
declaration order). -/
def headerToValue (h : KernelHeader) : Value :=
  .obj [("msg_id", .str h.msg_id), ("session", .str h.session),
        ("username", .str h.username), ("date", .str h.date),
        ("msg_type", .str (msgTypeToString h.msg_type)),
        ("version", .str h.version)]

/-- Extract a string field as the serde-derived deserializers do. -/
def getStringField (fields : List (String × Value)) (key : String) : Option String :=
  match getField fields key with
  | some (.str s) => some s
  | _ => none

/-- Serde deserialization of `KernelHeader` from a JSON value (unknown fields
are ignored, all six declared fields are required). -/
def headerFromValue : Value → Option KernelHeader
  | .obj fields => do
      let msg_id ← getStringField fields "msg_id"
      let session ← getStringField fields "session"
      let username ← getStringField fields "username"
      let date ← getStringField fields "date"
      let msg_type ← (getField fields "msg_type").bind msgTypeFromValue
      let version ← getStringField fields "version"
      pure { msg_id := msg_id, session := session, username := username,
             date := date, msg_type := msg_type, version := version }
  | _ => none

/-- Serde serialization of `Option<KernelHeader>`: `None` is the JSON literal
`null`. -/
def optHeaderToValue : Option KernelHeader → Value
  | none => .null
  | some h => headerToValue h

/-- Serde deserialization of `Option<KernelHeader>`. -/
def optHeaderFromValue : Value → Option (Option KernelHeader)
  | .null => some none
  | v => (headerFromValue v).map some

/-- Model of `KernelStatus` from `backend/wire_protocol.rs`. -/
inductive KernelStatus where
  | starting
  | idle
  | busy
deriving DecidableEq

/-- Serde deserialization of `KernelStatus` (snake_case strings). -/
def kernelStatusFromValue : Value → Option KernelStatus
  | .str s =>
      if s = "starting" then some .starting
      else if s = "idle" then some .idle
      else if s = "busy" then some .busy
      else none
  | _ => none

/-- Model of the `Status` message content. -/
structure Status where
  execution_state : KernelStatus
deriving DecidableEq

/-- Serde deserialization of `Status`. -/
def statusFromValue : Value → Option Status
  | .obj fields => do
      let st ← (getField fields "execution_state").bind kernelStatusFromValue
      pure { execution_state := st }
  | _ => none

/-- Model of the `Stream` message content (stdout/stderr output). -/
structure StreamContent where
  name : String
  text : String
deriving DecidableEq

/-- Serde deserialization of `Stream`. -/
def streamFromValue : Value → Option StreamContent
  | .obj fields => do
      let name ← getStringField fields "name"
      let text ← getStringField fields "text"
      pure { name := name, text := text }
  | _ => none

/-- Model of `ErrorReply` (error message content). -/
structure ErrorReply where
  ename : String
  evalue : String
  traceback : List String
deriving DecidableEq

/-- Extract a list of strings (serde `Vec<String>`). -/
def getStringList : Value → Option (List String)
  | .arr items => items.mapM fun item =>
      match item with
      | .str s => some s
      | _ => none
  | _ => none

/-- Serde deserialization of `ErrorReply`. -/
def errorReplyFromValue : Value → Option ErrorReply
  | .obj fields => do
      let ename ← getStringField fields "ename"
      let evalue ← getStringField fields "evalue"
      let traceback ← (getField fields "traceback").bind getStringList
      pure { ename := ename, evalue := evalue, traceback := traceback }
  | _ => none

/-- Extract a JSON object as a string-keyed map (serde
`BTreeMap<String, serde_json::Value>`); the values stay opaque. -/
def getValueMap : Value → Option (List (String × Value))
  | .obj fields => some fields
  | _ => none

/-- Model of `ExecuteResult` message content.  The `execution_count` field is
an `i32` in the source; serde accepts integral JSON numbers in range. -/
structure ExecuteResult where
  execution_count : Int
  data : List (String × Value)
  metadata : List (String × Value)

/-- Serde deserialization of an `i32` field from a JSON value. -/
def getI32 : Value → Option Int
  | .int n => if -(2 ^ 31) ≤ n ∧ n < 2 ^ 31 then some n else none
  | _ => none

/-- Serde deserialization of `ExecuteResult`. -/
def executeResultFromValue : Value → Option ExecuteResult
  | .obj fields => do
      let execution_count ← (getField fields "execution_count").bind getI32
      let data ← (getField fields "data").bind getValueMap
      let metadata ← (getField fields "metadata").bind getValueMap
      pure { execution_count := execution_count, data := data, metadata := metadata }
  | _ => none

/-- Model of `DisplayDataTransient`. -/
structure DisplayDataTransient where
  display_id : Option String

/-- Serde deserialization of an `Option<String>` field value. -/
def getOptString : Value → Option (Option String)
  | .null => some none
  | .str s => some (some s)
  | _ => none

/-- Serde deserialization of `DisplayDataTransient` (a missing `display_id`
field is `None`, the standard serde behavior for `Option` fields). -/
def displayDataTransientFromValue : Value → Option DisplayDataTransient
  | .obj fields =>
      match getField fields "display_id" with
      | none => some { display_id := none }
      | some v => (getOptString v).map fun o => { display_id := o }
  | _ => none

/-- Model of `DisplayData` message content. -/
structure DisplayData where
  data : List (String × Value)
  metadata : List (String × Value)
  transient : Option DisplayDataTransient

/-- Serde deserialization of `DisplayData` (the `transient` field is an
`Option` and so defaults to `None` when missing). -/
def displayDataFromValue : Value → Option DisplayData
  | .obj fields => do
      let data ← (getField fields "data").bind getValueMap
      let metadata ← (getField fields "metadata").bind getValueMap
      let transient ←
        match getField fields "transient" with
        | none => some none
        | some .null => some none
        | some v => (displayDataTransientFromValue v).map some
      pure { data := data, metadata := metadata, transient := transient }
  | _ => none

/-- Model of `ClearOutput` message content. -/
structure ClearOutput where
  wait : Bool
deriving DecidableEq

/-- Serde deserialization of `ClearOutput`. -/
def clearOutputFromValue : Value → Option ClearOutput
  | .obj fields =>
      match getField fields "wait" with
      | some (.bool b) => some { wait := b }
      | _ => none
  | _ => none

/-- Model of `ExecuteRequest` message content (sent by `run_cell`). -/
structure ExecuteRequest where
  code : String
  silent : Bool
  store_history : Bool
  user_expressions : List (String × String)
  allow_stdin : Bool
  stop_on_error : Bool

/-- Serde serialization of `ExecuteRequest` as a JSON value (fields in
declaration order; `user_expressions` is a string map). -/
def executeRequestToValue (r : ExecuteRequest) : Value :=
  .obj [("code", .str r.code), ("silent", .bool r.silent),
        ("store_history", .bool r.store_history),
        ("user_expressions", .obj (r.user_expressions.map fun p => (p.1, .str p.2))),
        ("allow_stdin", .bool r.allow_stdin),
        ("stop_on_error", .bool r.stop_on_error)]

/-- Model of `Reply<T>` from `backend/wire_protocol.rs`: a union internally
tagged by the `status` field, with variants `ok(T)`, `error(ErrorReply)`, and
the unit variant `abort`, which carries the serde alias `aborted`. -/
inductive Reply (T : Type) where
  | ok (value : T) : Reply T
  | error (reply : ErrorReply) : Reply T
  | abort : Reply T

/-- Serde deserialization of the internally tagged `Reply<T>`: the `status`
field selects the variant (`"aborted"` is an alias of `"abort"`), and the
variant content is deserialized from the remaining fields. -/
def replyFromValue {T : Type} (decT : Value → Option T) : Value → Option (Reply T)
  | .obj fields =>
      match getField fields "status" with
      | some (.str tag) =>
          let rest := Value.obj (fields.filter fun p => p.1 ≠ "status")
          if tag = "ok" then (decT rest).map .ok
          else if tag = "error" then (errorReplyFromValue rest).map .error
          else if tag = "abort" ∨ tag = "aborted" then some .abort
          else none
      | _ => none
  | _ => none

/-- Model of `ExecuteReply` message content. -/
structure ExecuteReply where
  execution_count : Int
  user_expressions : Option (List (String × String))

/-- Serde deserialization of a string-to-string map. -/
def getStringMap : Value → Option (List (String × String))
  | .obj fields => fields.mapM fun p =>
      match p.2 with
      | .str s => some (p.1, s)
      | _ => none
  | _ => none

/-- Serde deserialization of `ExecuteReply`. -/
def executeReplyFromValue : Value → Option ExecuteReply
  | .obj fields => do
      let execution_count ← (getField fields "execution_count").bind getI32
      let user_expressions ←
        match getField fields "user_expressions" with
        | none => some none
        | some .null => some none
        | some v => (getStringMap v).map some
      pure { execution_count := execution_count, user_expressions := user_expressions }
  | _ => none

/-- UTF-8 encoding of one character (model of Rust `str::as_bytes`). -/
def utf8EncodeChar (c : Char) : List Byte :=
  let n := c.toNat
  if n < 0x80 then [n]
  else if n < 0x800 then [0xC0 + n / 64, 0x80 + n % 64]
  else if n < 0x10000 then [0xE0 + n / 4096, 0x80 + n / 64 % 64, 0x80 + n % 64]
  else [0xF0 + n / 262144, 0x80 + n / 4096 % 64, 0x80 + n / 64 % 64, 0x80 + n % 64]

/-- UTF-8 encoding of a string. -/
def utf8Encode (s : String) : List Byte :=
  (s.data.map utf8EncodeChar).flatten

/-- True for UTF-8 continuation bytes (10xxxxxx). -/
def isContByte (b : Byte) : Bool := 0x80 ≤ b && b < 0xC0

/-- UTF-8 decoding (model of Rust `String::from_utf8`): rejects stray
continuation bytes, overlong forms, surrogates, and out-of-range values. -/
def utf8DecodeChars : List Byte → Option (List Char)
  | [] => some []
  | b :: rest =>
    if b < 0x80 then do
      pure (Char.ofNat b :: (← utf8DecodeChars rest))
    else if b < 0xC2 then none
    else if b < 0xE0 then
      match rest with
      | b1 :: rest1 =>
        if isContByte b1 then do
          pure (Char.ofNat ((b - 0xC0) * 64 + (b1 - 0x80)) :: (← utf8DecodeChars rest1))
        else none
      | _ => none
    else if b < 0xF0 then
      match rest with
      | b1 :: b2 :: rest2 =>
        if isContByte b1 && isContByte b2 then
          let n := (b - 0xE0) * 4096 + (b1 - 0x80) * 64 + (b2 - 0x80)
          if n < 0x800 ∨ (0xD800 ≤ n ∧ n < 0xE000) then none
          else do pure (Char.ofNat n :: (← utf8DecodeChars rest2))
        else none
      | _ => none
    else if b < 0xF5 then
      match rest with
      | b1 :: b2 :: b3 :: rest3 =>
        if isContByte b1 && isContByte b2 && isContByte b3 then
          let n := (b - 0xF0) * 262144 + (b1 - 0x80) * 4096 + (b2 - 0x80) * 64 + (b3 - 0x80)
          if n < 0x10000 ∨ 0x110000 ≤ n then none
          else do pure (Char.ofNat n :: (← utf8DecodeChars rest3))
        else none
      | _ => none
    else none

/-- UTF-8 decoding to a string. -/
def utf8Decode (bytes : List Byte) : Option String :=
  (utf8DecodeChars bytes).map List.asString

/-- Lowercase hexadecimal digit. -/
def hexDigitChar (n : Nat) : Char :=
  Char.ofNat (if n < 10 then 48 + n else 87 + n)

/-- JSON string escaping of one character, as `serde_json` emits it. -/
def escapeJsonChar (c : Char) : List Char :=
  if c = '"' then ['\\', '"']
  else if c = '\\' then ['\\', '\\']
  else if c = Char.ofNat 8 then ['\\', 'b']
  else if c = Char.ofNat 9 then ['\\', 't']
  else if c = Char.ofNat 10 then ['\\', 'n']
  else if c = Char.ofNat 12 then ['\\', 'f']
  else if c = Char.ofNat 13 then ['\\', 'r']
  else if c.toNat < 32 then
    ['\\', 'u', '0', '0', hexDigitChar (c.toNat / 16), hexDigitChar (c.toNat % 16)]
  else [c]

/-- A JSON string literal, quotes included. -/
def serializeJsonString (s : String) : String :=
  List.asString ('"' :: (s.data.map escapeJsonChar).flatten ++ ['"'])

mutual

/-- Compact JSON rendering of a value — the executable model of
`serde_json::to_string` (and of `to_vec`, after UTF-8 encoding). -/
def jsonToString : Value → String
  | .null => "null"
  | .bool true => "true"
  | .bool false => "false"
  | .int n => toString n
  | .fnum text => text
  | .str s => serializeJsonString s
  | .arr items => "[" ++ jsonItemsToString items ++ "]"
  | .obj fields => "\x7b" ++ jsonFieldsToString fields ++ "\x7d"

/-- Comma-separated rendering of array items. -/
def jsonItemsToString : List Value → String
  | [] => ""
  | [v] => jsonToString v
  | v :: rest => jsonToString v ++ "," ++ jsonItemsToString rest

/-- Comma-separated rendering of object fields. -/
def jsonFieldsToString : List (String × Value) → String
  | [] => ""
  | [(k, v)] => serializeJsonString k ++ ":" ++ jsonToString v
  | (k, v) :: rest => serializeJsonString k ++ ":" ++ jsonToString v ++ "," ++ jsonFieldsToString rest

end

/-- JSON whitespace. -/
def isJsonWs (c : Char) : Bool :=
  c = ' ' || c = Char.ofNat 9 || c = Char.ofNat 10 || c = Char.ofNat 13

/-- Drop leading JSON whitespace. -/
def skipWs : List Char → List Char
  | [] => []
  | c :: rest => if isJsonWs c then skipWs rest else c :: rest

/-- Parse one hexadecimal digit. -/
def parseHexDigit (c : Char) : Option Nat :=
  if '0' ≤ c ∧ c ≤ '9' then some (c.toNat - 48)
  else if 'a' ≤ c ∧ c ≤ 'f' then some (c.toNat - 87)
  else if 'A' ≤ c ∧ c ≤ 'F' then some (c.toNat - 55)
  else none

/-- Parse the body of a JSON string after the opening quote; returns the
decoded characters and the remainder after the closing quote. -/
def parseStringBody : Nat → List Char → Option (List Char × List Char)
  | 0, _ => none
  | _, [] => none
  | fuel + 1, c :: rest =>
    if c = '"' then some ([], rest)
    else if c = '\\' then
      match rest with
      | [] => none
      | e :: rest1 =>
        if e = '"' ∨ e = '\\' ∨ e = '/' then
          (parseStringBody fuel rest1).map fun p => (e :: p.1, p.2)
        else if e = 'b' then
          (parseStringBody fuel rest1).map fun p => (Char.ofNat 8 :: p.1, p.2)
        else if e = 't' then
          (parseStringBody fuel rest1).map fun p => (Char.ofNat 9 :: p.1, p.2)
        else if e = 'n' then
          (parseStringBody fuel rest1).map fun p => (Char.ofNat 10 :: p.1, p.2)
        else if e = 'f' then
          (parseStringBody fuel rest1).map fun p => (Char.ofNat 12 :: p.1, p.2)
        else if e = 'r' then
          (parseStringBody fuel rest1).map fun p => (Char.ofNat 13 :: p.1, p.2)
        else if e = 'u' then
          match rest1 with
          | h1 :: h2 :: h3 :: h4 :: rest2 => do
              let d1 ← parseHexDigit h1
              let d2 ← parseHexDigit h2
              let d3 ← parseHexDigit h3
              let d4 ← parseHexDigit h4
              let n := d1 * 4096 + d2 * 256 + d3 * 16 + d4
              if 0xD800 ≤ n ∧ n < 0xE000 then none
              else (parseStringBody fuel rest2).map fun p => (Char.ofNat n :: p.1, p.2)
          | _ => none
        else none
    else if c.toNat < 32 then none
    else (parseStringBody fuel rest).map fun p => (c :: p.1, p.2)

/-- Longest prefix of decimal digits, with the remainder. -/
def takeDigits : List Char → List Char × List Char
  | [] => ([], [])
  | c :: rest =>
    if c.isDigit then
      let p := takeDigits rest
      (c :: p.1, p.2)
    else ([], c :: rest)

/-- Digits to a natural number. -/
def digitsToNat (ds : List Char) : Nat :=
  ds.foldl (fun acc c => acc * 10 + (c.toNat - 48)) 0

/-- Parse a JSON number: integral numbers become `Value.int`, numbers with a
fraction or exponent are kept as their source text (`Value.fnum`). -/
def parseNumber (s : List Char) : Option (Value × List Char) :=
  let (sign, s1) := match s with
    | '-' :: rest => (true, rest)
    | _ => (false, s)
  match takeDigits s1 with
  | ([], _) => none
  | (intDigits, s2) =>
    let (fracPart, s3) : List Char × List Char := match s2 with
      | '.' :: rest =>
        match takeDigits rest with
        | ([], _) => ([], s2)
        | (ds, r) => ('.' :: ds, r)
      | _ => ([], s2)
    let (expPart, s4) : List Char × List Char := match s3 with
      | e :: rest =>
        if e = 'e' ∨ e = 'E' then
          match rest with
          | p :: rest1 =>
            if p = '+' ∨ p = '-' then
              match takeDigits rest1 with
              | ([], _) => ([], s3)
              | (ds, r) => (e :: p :: ds, r)
            else
              match takeDigits rest with
              | ([], _) => ([], s3)
              | (ds, r) => (e :: ds, r)
          | [] => ([], s3)
        else ([], s3)
      | [] => ([], s3)
    if fracPart.isEmpty ∧ expPart.isEmpty then
      let n : Int := Int.ofNat (digitsToNat intDigits)
      some (.int (if sign then -n else n), s2)
    else
      let text := (if sign then ['-'] else []) ++ intDigits ++ fracPart ++ expPart
      some (.fnum (List.asString text), s4)

mutual

/-- Fuel-indexed JSON value parser (the model of `serde_json`'s parser). -/
def parseValueF : Nat → List Char → Option (Value × List Char)
  | 0, _ => none
  | fuel + 1, s =>
    match skipWs s with
    | [] => none
    | c :: rest =>
      if c = 'n' then
        match c :: rest with
        | 'n' :: 'u' :: 'l' :: 'l' :: r => some (.null, r)
        | _ => none
      else if c = 't' then
        match c :: rest with
        | 't' :: 'r' :: 'u' :: 'e' :: r => some (.bool true, r)
        | _ => none
      else if c = 'f' then
        match c :: rest with
        | 'f' :: 'a' :: 'l' :: 's' :: 'e' :: r => some (.bool false, r)
        | _ => none
      else if c = '"' then
        (parseStringBody (rest.length + 1) rest).map fun p => (.str (List.asString p.1), p.2)
      else if c = '[' then
        match skipWs rest with
        | ']' :: r => some (.arr [], r)
        | r => (parseItemsF fuel r).map fun p => (.arr p.1, p.2)
      else if c = '\x7b' then
        match skipWs rest with
        | '\x7d' :: r => some (.obj [], r)
        | r => (parseFieldsF fuel r).map fun p => (.obj p.1, p.2)
      else parseNumber (c :: rest)

/-- Parse one or more comma-separated array items and the closing bracket. -/
def parseItemsF : Nat → List Char → Option (List Value × List Char)
  | 0, _ => none
  | fuel + 1, s => do
    let (v, r) ← parseValueF fuel s
    match skipWs r with
    | ',' :: r1 => (parseItemsF fuel r1).map fun p => (v :: p.1, p.2)
    | ']' :: r1 => some ([v], r1)
    | _ => none

/-- Parse one or more comma-separated object fields and the closing brace. -/
def parseFieldsF : Nat → List Char → Option (List (String × Value) × List Char)
  | 0, _ => none
  | fuel + 1, s =>
    match skipWs s with
    | '"' :: r => do
      let (key, r1) ← parseStringBody (r.length + 1) r
      match skipWs r1 with
      | ':' :: r2 => do
        let (v, r3) ← parseValueF fuel r2
        match skipWs r3 with
        | ',' :: r4 => (parseFieldsF fuel r4).map fun p => ((List.asString key, v) :: p.1, p.2)
        | '\x7d' :: r4 => some ([(List.asString key, v)], r4)
        | _ => none
      | _ => none
    | _ => none

end

/-- Parse a complete JSON document (no trailing input allowed). -/
def jsonParse (s : String) : Option Value :=
  match parseValueF (2 * s.length + 2) s.data with
  | some (v, rest) => if skipWs rest = [] then some v else none
  | none => none

/-- Model of `serde_json::to_vec`. -/
def jsonToVec (v : Value) : List Byte :=
  utf8Encode (jsonToString v)

/-- Model of `serde_json::from_slice` into a `Value`. -/
def jsonFromSlice (bytes : List Byte) : Option Value :=
  (utf8Decode bytes).bind jsonParse

/-- Result of a Rust computation that can panic (e.g. out-of-bounds `Vec`
indexing).  A panic aborts the surrounding driver task. -/
inductive RustResult (α : Type) where
  | panicked : RustResult α
  | ok (val : α) : RustResult α

/-- Shorthand for Rust functions returning `Option` that can also panic; the
`?` operator is the monadic bind on the `Option` layer. -/
def ROpt (α : Type) := RustResult (Option α)

/-- Successful, present result. -/
def ROpt.pure (a : α) : ROpt α := .ok (some a)

/-- Sequencing: a panic aborts, an absent value propagates (Rust `?`). -/
def ROpt.bind (x : ROpt α) (f : α → ROpt β) : ROpt β :=
  match x with
  | .panicked => .panicked
  | .ok none => .ok none
  | .ok (some a) => f a

instance : Monad ROpt where
  pure := ROpt.pure
  bind := ROpt.bind

/-- Lift a fallible (but non-panicking) Rust expression followed by `?`. -/
def ROpt.lift (o : Option α) : ROpt α := .ok o

/-- Rust indexing `l[i]`, which panics when out of bounds. -/
def ROpt.idx (l : List α) (i : Nat) : ROpt α :=
  if h : i < l.length then .ok (some l[i]) else .panicked

/-- The ZeroMQ delimiter frame `b"<IDS|MSG>"`. -/
def delimFrame : Frame := utf8Encode "<IDS|MSG>"

/-- Model of Rust `Iterator::position`: index of the first element satisfying
the predicate. -/
def position (p : α → Bool) : List α → Option Nat
  | [] => none
  | a :: rest => if p a then some 0 else (position p rest).map (· + 1)

/-- Lowercase hexadecimal rendering of bytes (Rust `format` with the `:x`
specifier on an HMAC output). -/
def toHexLower (bytes : List Byte) : String :=
  List.asString ((bytes.map fun b => [hexDigitChar (b / 16 % 16), hexDigitChar (b % 16)]).flatten)

/-- Model of `sign_message` from `backend/wire_protocol/driver_zeromq.rs`.
The HMAC-SHA256 primitive comes from the external `hmac`/`sha2` crates and is
taken as a parameter `hmacSha256 key data`; feeding the frames one by one into
the MAC equals feeding their concatenation. -/
def sign_message (hmacSha256 : List Byte → List Byte → List Byte)
    (signing_key : String) (frames : List Frame) : String :=
  toHexLower (hmacSha256 (utf8Encode signing_key) frames.flatten)

/-- Model of `to_zmq_payload`: serialize header, parent header, literal
metadata, content; append buffers; prepend the signature and the delimiter. -/
def to_zmq_payload (hmacSha256 : List Byte → List Byte → List Byte)
    (msg : KernelMessage) (signing_key : String) : Option (List Frame) :=
  let header := jsonToVec (headerToValue msg.header)
  let parent_header := jsonToVec (optHeaderToValue msg.parent_header)
  let metadata := utf8Encode "\x7b\x7d"
  let content := jsonToVec msg.content
  let payload := [header, parent_header, metadata, content] ++ msg.buffers
  let signature := sign_message hmacSha256 signing_key payload
  some (delimFrame :: utf8Encode signature :: payload)

/-- Model of `from_zmq_payload`: find the delimiter frame, then read the
frames at fixed offsets after it.  The source indexes `payload[delim_idx + k]`
directly, which panics when the delimiter is followed by too few frames; the
signature frame at `delim_idx + 1` and the metadata frame at `delim_idx + 4`
are never read.  The final `payload[delim_idx + 6..]` slice cannot panic when
reached, because the successful index at `delim_idx + 5` already forces the
length bound, so it is modelled by `List.drop`. -/
def from_zmq_payload (payload : List Frame) : ROpt KernelMessage := do
  let delim_idx ← ROpt.lift (position (fun f => f == delimFrame) payload)
  let headerFrame ← ROpt.idx payload (delim_idx + 2)
  let header ← ROpt.lift ((jsonFromSlice headerFrame).bind headerFromValue)
  let parentFrame ← ROpt.idx payload (delim_idx + 3)
  let parent_header ← ROpt.lift ((jsonFromSlice parentFrame).bind optHeaderFromValue)
  let contentFrame ← ROpt.idx payload (delim_idx + 5)
  let content ← ROpt.lift (jsonFromSlice contentFrame)
  let buffers := payload.drop (delim_idx + 6)
  ROpt.pure { header := header, parent_header := parent_header,
              content := content, buffers := buffers }

/-- Little-endian encoding of a `u64` (Rust `u64::to_le_bytes`; values are
reduced modulo 2^64 by the byte extraction). -/
def u64ToLE8 (n : Nat) : List Byte :=
  [n % 256, n / 256 % 256, n / 256 ^ 2 % 256, n / 256 ^ 3 % 256,
   n / 256 ^ 4 % 256, n / 256 ^ 5 % 256, n / 256 ^ 6 % 256, n / 256 ^ 7 % 256]

/-- Little-endian decoding (Rust `u64::from_le_bytes`; in real payloads every
byte is below 256). -/
def leBytesToNat : List Byte → Nat
  | [] => 0
  | b :: rest => b + 256 * leBytesToNat rest

/-- The segments of the WS framing in payload order: channel, serialized
header, serialized parent header, literal metadata, serialized content, then
the buffers (the five appends plus the buffer loop of `to_ws_payload`). -/
def wsSegments (msg : KernelMessage) (channel : String) : List Frame :=
  [utf8Encode channel, jsonToVec (headerToValue msg.header),
   jsonToVec (optHeaderToValue msg.parent_header), utf8Encode "\x7b\x7d",
   jsonToVec msg.content] ++ msg.buffers

/-- Byte offsets of consecutive segments starting at `base` — the values the
`to_ws_payload` loop pushes just before appending each segment. -/
def segmentOffsets (base : Nat) : List Frame → List Nat
  | [] => []
  | seg :: rest => base :: segmentOffsets (base + seg.length) rest

/-- Model of `to_ws_payload` from `driver_websocket.rs`: the offset table
(count first, then one offset per segment) followed by the concatenated
segments channel, header, parent header, metadata, content, buffers. -/
def to_ws_payload (msg : KernelMessage) (channel : String) : Option (List Byte) :=
  let offset_number := 5 + msg.buffers.length
  let offset_0 := 8 * (offset_number + 1)
  let segments := wsSegments msg channel
  let offsets := offset_number :: segmentOffsets offset_0 segments
  some ((offsets.map u64ToLE8).flatten ++ segments.flatten)

/-- Model of Rust slice range access `payload.get(a..b)`, which returns
`None` when the range is inverted or out of bounds. -/
def bytesGetRange (l : List Byte) (a b : Nat) : Option (List Byte) :=
  if a ≤ b ∧ b ≤ l.length then some ((l.drop a).take (b - a)) else none

/-- The offset-reading loop of `from_ws_payload`: `count` table entries read
from byte position `8 * (i + 1)` onwards. -/
def readWsOffsets (payload : List Byte) : Nat → Nat → Option (List Nat)
  | _, 0 => some []
  | i, count + 1 => do
      let bytes ← bytesGetRange payload (8 * (i + 1)) (8 * (i + 1) + 8)
      let rest ← readWsOffsets payload (i + 1) count
      pure (leBytesToNat bytes :: rest)

/-- The buffer-reading loop of `from_ws_payload` (`for i in 5..offset_number`):
indexes into the offsets vector (panicking on out-of-bounds) and slices the
payload. -/
def readWsBuffers (payload : List Byte) (offsets : List Nat) : Nat → Nat → ROpt (List Frame)
  | _, 0 => ROpt.pure []
  | i, count + 1 => do
      let a ← ROpt.idx offsets i
      let b ← ROpt.idx offsets (i + 1)
      let buf ← ROpt.lift (bytesGetRange payload a b)
      let rest ← readWsBuffers payload offsets (i + 1) count
      ROpt.pure (buf :: rest)

/-- Model of `from_ws_payload`: read the offset count and the offsets, append
the synthesized `payload.len()` entry, then slice out channel, header, parent
header, and content (the metadata slice is skipped in the source), and the
buffers.  `offsets[k]` indexing panics when the table is too short. -/
def from_ws_payload (payload : List Byte) : ROpt (KernelMessage × String) := do
  let onBytes ← ROpt.lift (bytesGetRange payload 0 8)
  let offset_number := leBytesToNat onBytes
  let offs ← ROpt.lift (readWsOffsets payload 0 offset_number)
  let offsets := offs ++ [payload.length]
  let o0 ← ROpt.idx offsets 0
  let o1 ← ROpt.idx offsets 1
  let channel ← ROpt.lift ((bytesGetRange payload o0 o1).bind utf8Decode)
  let o2 ← ROpt.idx offsets 2
  let header ← ROpt.lift (((bytesGetRange payload o1 o2).bind jsonFromSlice).bind headerFromValue)
  let o3 ← ROpt.idx offsets 3
  let parent_header ← ROpt.lift (((bytesGetRange payload o2 o3).bind jsonFromSlice).bind optHeaderFromValue)
  let o4 ← ROpt.idx offsets 4
  let o5 ← ROpt.idx offsets 5
  let content ← ROpt.lift ((bytesGetRange payload o4 o5).bind jsonFromSlice)
  let buffers ← readWsBuffers payload offsets 5 (offset_number - 5)
  ROpt.pure ({ header := header, parent_header := parent_header,
               content := content, buffers := buffers }, channel)

/-- Handle returned by `call_shell`/`call_control`; dropping it removes its
correlation entry (`impl Drop for PendingRequest`).  The `waiter` number
identifies the oneshot receiver created for this request. -/
structure PendingRequest where
  msg_id : String
  waiter : Nat
deriving DecidableEq

/-- State of a `KernelConnection` as observed through the facade in
`backend/wire_protocol.rs`: the pending iopub queue, the log of messages
pushed onto the shell send queue, whether `close()` has closed that queue, the
correlation map `reply_tx_map` (msg_id to waiter number), and the set of
waiter numbers whose oneshot receiver is still held by a live
`PendingRequest`. -/
structure ConnState where
  iopubQueue : List KernelMessage
  shellSentLog : List KernelMessage
  shellClosed : Bool
  replyTxMap : List (String × Nat)
  liveWaiters : List Nat
  nextWaiter : Nat

/-- A fresh connection as built by the drivers. -/
def initConn : ConnState :=
  { iopubQueue := [], shellSentLog := [], shellClosed := false, replyTxMap := [],
    liveWaiters := [], nextWaiter := 0 }

/-- DashMap insertion semantics: the new binding replaces any old one. -/
def mapInsert (m : List (String × Nat)) (k : String) (w : Nat) : List (String × Nat) :=
  (k, w) :: m.filter fun p => p.1 ≠ k

/-- Model of `KernelConnection::call_shell`: create a oneshot channel, insert
the sender into the correlation map keyed by the message's `msg_id`, then push
the message onto the shell send queue.  If the queue is closed the send fails
with a disconnect error and no `PendingRequest` is constructed — the local
oneshot receiver is dropped, but the map entry just inserted stays behind. -/
def call_shell (st : ConnState) (message : KernelMessage) : ConnState × Option PendingRequest :=
  let w := st.nextWaiter
  let msg_id := message.header.msg_id
  let st1 := { st with nextWaiter := w + 1, replyTxMap := mapInsert st.replyTxMap msg_id w }
  if st1.shellClosed then
    (st1, none)
  else
    ({ st1 with shellSentLog := st1.shellSentLog ++ [message],
                liveWaiters := w :: st1.liveWaiters },
     some { msg_id := msg_id, waiter := w })

/-- Model of `impl Drop for PendingRequest`: remove the correlation entry; the
held oneshot receiver ceases to exist. -/
def dropPendingRequest (st : ConnState) (pr : PendingRequest) : ConnState :=
  { st with replyTxMap := st.replyTxMap.filter fun p => p.1 ≠ pr.msg_id,
            liveWaiters := st.liveWaiters.filter fun w => w ≠ pr.waiter }

/-- Model of `KernelConnection::close`: closes the send queues (and fires the
cancellation signal, which is not part of this state). -/
def close (st : ConnState) : ConnState :=
  { st with shellClosed := true }

/-- Model of `KernelConnection::try_recv_iopub`: pop the next queued iopub
message if one is immediately available. -/
def try_recv_iopub (st : ConnState) : Option KernelMessage × ConnState :=
  match st.iopubQueue with
  | [] => (none, st)
  | m :: rest => (some m, { st with iopubQueue := rest })

/-- The drain loop at the top of `run_cell`
(`while conn.try_recv_iopub().is_some()`), run with enough fuel to reach the
empty queue. -/
def drainLoop : Nat → ConnState → ConnState
  | 0, st => st
  | fuel + 1, st =>
    match try_recv_iopub st with
    | (none, st1) => st1
    | (some _, st1) => drainLoop fuel st1

/-- Clearing of lingering iopub messages before a cell run. -/
def drainIopub (st : ConnState) : ConnState :=
  drainLoop (st.iopubQueue.length + 1) st

/-- Model of the send phase of `run_cell` in `backend/commands.rs`: drain
pending iopub messages, then `call_shell` an `execute_request` built by
`KernelMessage::new` (fresh UUID and current date are parameters; the typed
content is serialized by `into_json` inside `call_shell`).  The returned
`PendingRequest` is not bound by the caller and is dropped immediately.  The
boolean reports success (`false` is the `Err(KernelDisconnect)` early
return). -/
def run_cell_send (st : ConnState) (code freshUuid nowDate : String) : ConnState × Bool :=
  let st1 := drainIopub st
  let message : KernelMessage :=
    { header := { msg_id := freshUuid, session := "jute-session", username := "jute-user",
                  date := nowDate, msg_type := .executeRequest, version := "5.4" },
      parent_header := none,
      content := executeRequestToValue
        { code := code, silent := false, store_history := true, user_expressions := [],
          allow_stdin := false, stop_on_error := true },
      buffers := [] }
  match call_shell st1 message with
  | (st2, some pr) => (dropPendingRequest st2 pr, true)
  | (st2, none) => (st2, false)

/-- Error kinds surfaced inside the `run_cell` streaming task, with the
`thiserror` display strings from `lib.rs`. -/
inductive WireError where
  | kernelDisconnect
  | deserializeMessage (text : String)
deriving DecidableEq

/-- Display string of an error (`err.to_string()`). -/
def WireError.toMessage : WireError → String
  | .kernelDisconnect => "disconnected from the kernel"
  | .deserializeMessage text => "could not deserialize message: " ++ text

/-- Model of `KernelMessage::into_typed` restricted to the content (the only
part the `run_cell` loop uses); the error text produced by `serde_json` itself
is not modelled. -/
def intoTyped {α : Type} (dec : Value → Option α) (m : KernelMessage) : Except WireError α :=
  match dec m.content with
  | some a => .ok a
  | none => .error (.deserializeMessage "invalid content")

/-- Model of `RunCellEvent` from `backend/commands.rs`. -/
inductive RunCellEvent where
  | stdout (text : String)
  | stderr (text : String)
  | executeResult (content : ExecuteResult)
  | displayData (content : DisplayData)
  | updateDisplayData (content : DisplayData)
  | clearOutput (content : ClearOutput)
  | error (content : ErrorReply)
  | disconnect (message : String)

/-- One iteration body of the `stream_results_fut` loop: the match on
`msg.header.msg_type`, yielding emitted events and an optional kernel-status
update (only the `Status` arm updates it). -/
def handleIopubMessage (msg : KernelMessage) :
    Except WireError (List RunCellEvent × Option KernelStatus) :=
  match msg.header.msg_type with
  | .status => do
      let content ← intoTyped statusFromValue msg
      pure ([], some content.execution_state)
  | .stream => do
      let content ← intoTyped streamFromValue msg
      if content.name = "stdout" then pure ([.stdout content.text], none)
      else pure ([.stderr content.text], none)
  | .executeInput => pure ([], none)
  | .executeResult => do
      let content ← intoTyped executeResultFromValue msg
      pure ([.executeResult content], none)
  | .displayData => do
      let content ← intoTyped displayDataFromValue msg
      pure ([.displayData content], none)
  | .updateDisplayData => do
      let content ← intoTyped displayDataFromValue msg
      pure ([.updateDisplayData content], none)
  | .clearOutput => do
      let content ← intoTyped clearOutputFromValue msg
      pure ([.clearOutput content], none)
  | .error => do
      let content ← intoTyped errorReplyFromValue msg
      pure ([.error content], none)
  | _ => pure ([], none)

/-- How the `run_cell` event stream can end. -/
inductive StreamOutcome where
  | finishedIdle
  | disconnected (message : String)
  | waiting
deriving DecidableEq

/-- Model of `stream_results_fut` together with its spawning wrapper: process
incoming iopub deliveries while the status is not idle.  `inputs` are the
messages the iopub queue will deliver; `closedAfter` says whether the
transport closes after them (making `recv_iopub` fail) or stays open (the
loop would keep waiting, `StreamOutcome.waiting`).  Any error is translated
into a final `disconnect` event by the wrapper task. -/
def streamResultsLoop (status : KernelStatus) (inputs : List KernelMessage)
    (closedAfter : Bool) : List RunCellEvent × StreamOutcome :=
  if status = .idle then ([], .finishedIdle)
  else
    match inputs with
    | [] =>
      if closedAfter then
        let s := WireError.toMessage .kernelDisconnect
        ([.disconnect s], .disconnected s)
      else ([], .waiting)
    | m :: rest =>
      match handleIopubMessage m with
      | .error e =>
        let s := WireError.toMessage e
        ([.disconnect s], .disconnected s)
      | .ok (events, update) =>
        let newStatus := match update with
          | some s => s
          | none => status
        let p := streamResultsLoop newStatus rest closedAfter
        (events ++ p.1, p.2)

/-- The `run_cell` event stream starts with status busy. -/
def run_cell_stream (inputs : List KernelMessage) (closedAfter : Bool) :
    List RunCellEvent × StreamOutcome :=
  streamResultsLoop .busy inputs closedAfter

/-- Whether a message decodes without a deserialization error in the
`stream_results_fut` match. -/
def decodesOk (m : KernelMessage) : Bool :=
  match handleIopubMessage m with
  | .ok _ => true
  | .error _ => false

/-- Whether a message is an iopub `status` message carrying
`execution_state=idle`. -/
def isIdleStatus (m : KernelMessage) : Bool :=
  if m.header.msg_type = .status ∧
      statusFromValue m.content = some { execution_state := KernelStatus.idle } then
    true
  else false

/-- Model of `KernelInterruptMode` from `environment.rs`. -/
inductive KernelInterruptMode where
  | signal
  | message
deriving DecidableEq

/-- Model of `KernelSpec` from `environment.rs`. -/
structure KernelSpec where
  argv : List String
  display_name : String
  language : String
  interrupt_mode : KernelInterruptMode
  env : List (String × String)

/-- Relevant environment variables (`std::env::var` returns an error for an
unset variable, hence `Option`).  The non-Windows branches of
`environment.rs` read `HOME` with `.unwrap()`, so `home` is taken as a value
here. -/
structure EnvVars where
  jupyterPath : Option String
  jupyterDataDir : Option String
  jupyterRuntimeDir : Option String
  xdgDataHome : Option String
  home : String

/-- The two non-Windows compilation targets of `environment.rs`. -/
inductive TargetOS where
  | linux
  | macos
deriving DecidableEq

/-- The platform default data directory (the `else` branch when
`JUPYTER_DATA_DIR` is unset): `cfg(target_os = "macos")` and
`cfg(target_os = "linux")` from `data_search_paths` / `data_dir`. -/
def defaultDataDir (os : TargetOS) (env : EnvVars) : String :=
  match os with
  | .macos => env.home ++ "/Library/Jupyter"
  | .linux =>
    match env.xdgDataHome with
    | some xdg => xdg ++ "/jupyter"
    | none => env.home ++ "/.local/share/jupyter"

/-- Model of `data_search_paths` (non-Windows targets, where the `pathsep` is
a colon): each `dirs.push`/`dirs.extend` of the source appended in order. -/
def data_search_paths (os : TargetOS) (env : EnvVars) (interpPfx : Option String) :
    List String :=
  let dirs : List String := []
  let dirs := dirs ++
    (match env.jupyterPath with
     | some jupyter_path => jupyter_path.splitOn ":"
     | none => [])
  let dirs := dirs ++
    (match env.jupyterDataDir with
     | some jupyter_data_dir => [jupyter_data_dir]
     | none => [defaultDataDir os env])
  let dirs := dirs ++
    (match interpPfx with
     | some p => [p ++ "/share/jupyter"]
     | none => [])
  let dirs := dirs ++ ["/usr/share/jupyter", "/usr/local/share/jupyter"]
  dirs

/-- Model of `list_kernels`: the filesystem scan `list_kernels_from_path`
(directory enumeration of `<dir>/kernels/<name>/kernel.json`) is the external
parameter `scan`; `join_all` preserves order and the results are flattened. -/
def list_kernels (os : TargetOS) (env : EnvVars) (interpPfx : Option String)
    (scan : String → List (String × KernelSpec)) : List (String × KernelSpec) :=
  ((data_search_paths os env interpPfx).map scan).flatten

/-- Model of `data_dir` from `environment.rs` (non-Windows targets). -/
def data_dir (os : TargetOS) (env : EnvVars) : String :=
  match env.jupyterDataDir with
  | some jupyter_data_dir => jupyter_data_dir
  | none => defaultDataDir os env

/-- Model of `runtime_dir` from `environment.rs` (non-Windows: the fallback
appends `/runtime` to the data directory). -/
def runtime_dir (os : TargetOS) (env : EnvVars) : String :=
  match env.jupyterRuntimeDir with
  | some jupyter_runtime_dir => jupyter_runtime_dir
  | none => data_dir os env ++ "/runtime"

/-- Model of the connection-file path construction in `LocalKernel::start`
(`backend/local.rs`): `runtime_dir + &format!(...)` concatenates the runtime
directory directly with the file name. -/
def connection_filename (os : TargetOS) (env : EnvVars) (kernel_id : String) : String :=
  runtime_dir os env ++ ("jute-" ++ kernel_id ++ ".json")

set_option maxRecDepth 40000

/-- Helper: the drain loop empties the iopub queue and changes nothing else,
given enough fuel. -/
theorem drainLoop_spec (fuel : Nat) (st : ConnState) (h : st.iopubQueue.length < fuel) :
    drainLoop fuel st = { st with iopubQueue := [] } := by
  induction fuel generalizing st with
  | zero => omega
  | succ n ih =>
    cases hq : st.iopubQueue with
    | nil =>
      simp only [drainLoop, try_recv_iopub, hq]
      rw [← hq]
    | cons m rest =>
      have h2 : rest.length < n := by
        rw [hq] at h
        simpa using Nat.lt_of_succ_lt_succ h
      simp only [drainLoop, try_recv_iopub, hq]
      rw [ih { st with iopubQueue := rest } (by simpa using h2)]

/-- Helper: `drainIopub` empties the queue and preserves the rest. -/
theorem drainIopub_spec (st : ConnState) : drainIopub st = { st with iopubQueue := [] } :=
  drainLoop_spec _ _ (by omega)

/-- Claim C2 (code bug): a ZeroMQ payload whose delimiter frame is followed by
fewer than five frames makes `from_zmq_payload` panic instead of returning no
message — `payload[delim_idx + 2]` indexes out of bounds — while a payload
without a delimiter frame is handled gracefully. -/
theorem c2_short_payload_panics :
    from_zmq_payload [delimFrame] = .panicked
    ∧ from_zmq_payload [] = .ok none := by
  constructor <;> rfl

/-- A concrete message for the correlation-map scenario. -/
def c3msg : KernelMessage :=
  { header := { msg_id := "m-1", session := "s", username := "u", date := "d",
                msg_type := .executeRequest, version := "5.4" },
    parent_header := none, content := .obj [], buffers := [] }

/-- Claim C3 (code bug): when the shell send queue is closed, `call_shell`
returns a disconnect error, but the entry it inserted into the correlation map
before the failed send stays behind even though its oneshot receiver has been
dropped (no `PendingRequest` exists), violating the invariant that the map
holds no entry whose waiter has been dropped. -/
theorem c3_map_leak_on_closed_send :
    (call_shell (close initConn) c3msg).2 = none
    ∧ ("m-1", 0) ∈ (call_shell (close initConn) c3msg).1.replyTxMap
    ∧ 0 ∉ (call_shell (close initConn) c3msg).1.liveWaiters := by
  refine ⟨rfl, ?_, ?_⟩ <;> simp [call_shell, close, initConn, mapInsert, c3msg]

/-- Environment with an explicit `JUPYTER_RUNTIME_DIR`. -/
def c4EnvExplicit : EnvVars :=
  { jupyterPath := none, jupyterDataDir := none, jupyterRuntimeDir := some "/tmp/rt",
    xdgDataHome := none, home := "/home/u" }

/-- Environment using the default runtime directory. -/
def c4EnvDefault : EnvVars :=
  { jupyterPath := none, jupyterDataDir := none, jupyterRuntimeDir := none,
    xdgDataHome := none, home := "/home/u" }

/-- Claim C4 (code bug): `LocalKernel::start` concatenates the runtime
directory and the file name without a path separator, writing
`<runtime_dir>jute-<uuid>.json` instead of `<runtime_dir>/jute-<uuid>.json`,
both with an explicit `JUPYTER_RUNTIME_DIR` and with the default runtime
directory. -/
theorem c4_missing_separator :
    connection_filename .linux c4EnvExplicit "k1" = "/tmp/rtjute-k1.json"
    ∧ connection_filename .linux c4EnvExplicit "k1" ≠
        runtime_dir .linux c4EnvExplicit ++ "/" ++ ("jute-" ++ "k1" ++ ".json")
    ∧ connection_filename .linux c4EnvDefault "k1" =
        "/home/u/.local/share/jupyter/runtimejute-k1.json" := by
  refine ⟨by decide, by decide, by decide⟩

/-- Claim C8: `run_cell` first drains every immediately available iopub
message and then pushes exactly one `execute_request` onto the shell queue,
whose content has the given code, `silent=false`, `store_history=true`, empty
`user_expressions`, `allow_stdin=false`, and `stop_on_error=true`. -/
theorem c8_run_cell_send (st : ConnState) (code freshUuid nowDate : String)
    (hopen : st.shellClosed = false) :
    (run_cell_send st code freshUuid nowDate).2 = true
    ∧ (run_cell_send st code freshUuid nowDate).1.iopubQueue = []
    ∧ (run_cell_send st code freshUuid nowDate).1.shellSentLog = st.shellSentLog ++
        [{ header := { msg_id := freshUuid, session := "jute-session",
                       username := "jute-user", date := nowDate,
                       msg_type := .executeRequest, version := "5.4" },
           parent_header := none,
           content := executeRequestToValue
             { code := code, silent := false, store_history := true,
               user_expressions := [], allow_stdin := false, stop_on_error := true },
           buffers := [] }] := by
  have hd := drainIopub_spec st
  simp [run_cell_send, hd, call_shell, hopen, dropPendingRequest]

/-- Witness for C8 at a concrete state with a stale iopub message queued. -/
theorem c8_run_cell_send_witness :
    (run_cell_send { initConn with iopubQueue := [c3msg] } "print(1)" "u-1" "d-1").2 = true
    ∧ (run_cell_send { initConn with iopubQueue := [c3msg] } "print(1)" "u-1" "d-1").1.iopubQueue = []
    ∧ (run_cell_send { initConn with iopubQueue := [c3msg] } "print(1)" "u-1" "d-1").1.shellSentLog =
        ({ initConn with iopubQueue := [c3msg] } : ConnState).shellSentLog ++
        [{ header := { msg_id := "u-1", session := "jute-session",
                       username := "jute-user", date := "d-1",
                       msg_type := .executeRequest, version := "5.4" },
           parent_header := none,
           content := executeRequestToValue
             { code := "print(1)", silent := false, store_history := true,
               user_expressions := [], allow_stdin := false, stop_on_error := true },
           buffers := [] }] :=
  c8_run_cell_send { initConn with iopubQueue := [c3msg] } "print(1)" "u-1" "d-1" rfl

/-- Claim C9: a JSON reply body with status `"aborted"` deserializes into
`Reply<T>` exactly as `"abort"` does, and `⦃"status":"aborted"⦄` deserializes
into `Reply<ExecuteReply>` as the abort variant. -/
theorem c9_reply_abort_alias (T : Type) (decT : Value → Option T) :
    replyFromValue decT (Value.obj [("status", .str "aborted")]) =
      replyFromValue decT (Value.obj [("status", .str "abort")])
    ∧ replyFromValue decT (Value.obj [("status", .str "aborted")]) = some .abort
    ∧ replyFromValue executeReplyFromValue (Value.obj [("status", .str "aborted")]) =
        some .abort := by
  refine ⟨rfl, rfl, rfl⟩

/-- Claim C10: in the `run_cell` stream arm, a `stream` message is emitted as
`Stdout(text)` exactly when its `name` is `"stdout"`, and as `Stderr(text)`
for every other name. -/
theorem c10_stream_name_routing (msg : KernelMessage) (name text : String)
    (hty : msg.header.msg_type = .stream)
    (hdec : streamFromValue msg.content = some { name := name, text := text }) :
    handleIopubMessage msg =
      .ok ((if name = "stdout" then [RunCellEvent.stdout text]
            else [RunCellEvent.stderr text]), none)
    ∧ (name ≠ "stdout" → handleIopubMessage msg = .ok ([RunCellEvent.stderr text], none)) := by
  constructor
  · by_cases h : name = "stdout" <;>
      simp [handleIopubMessage, hty, intoTyped, hdec, h, Bind.bind, Except.bind, pure, Except.pure]
  · intro h
    simp [handleIopubMessage, hty, intoTyped, hdec, h, Bind.bind, Except.bind, pure, Except.pure]

/-- A stream message whose name is neither stdout nor stderr. -/
def c10msg : KernelMessage :=
  { header := { msg_id := "m-2", session := "s", username := "u", date := "d",
                msg_type := .stream, version := "5.4" },
    parent_header := none,
    content := .obj [("name", .str "weird"), ("text", .str "t")], buffers := [] }

/-- Witness for C10: an unrecognized stream name is routed to stderr. -/
theorem c10_stream_name_routing_witness :
    handleIopubMessage c10msg = .ok ([RunCellEvent.stderr "t"], none) := by
  have h := c10_stream_name_routing c10msg "weird" "t" rfl rfl
  exact h.2 (by decide)

/-- Claim C7: the kernel-spec search path is, in order, the colon-split
entries of `JUPYTER_PATH`, then `JUPYTER_DATA_DIR` (or the platform default
data directory), then `<prefix>/share/jupyter` when an interpreter prefix is
supplied, then `/usr/share/jupyter` and `/usr/local/share/jupyter`; and
`list_kernels` returns the discovered pairs in this path order with later
directories never overriding earlier ones (all pairs are kept, concatenated
in order). -/
theorem c7_search_path_order (os : TargetOS) (env : EnvVars) (interpPfx : Option String)
    (scan : String → List (String × KernelSpec)) :
    data_search_paths os env interpPfx =
      (match env.jupyterPath with
       | some jupyter_path => jupyter_path.splitOn ":"
       | none => []) ++
      [match env.jupyterDataDir with
       | some jupyter_data_dir => jupyter_data_dir
       | none => defaultDataDir os env] ++
      (match interpPfx with
       | some p => [p ++ "/share/jupyter"]
       | none => []) ++
      ["/usr/share/jupyter", "/usr/local/share/jupyter"]
    ∧ list_kernels os env interpPfx scan =
        ((data_search_paths os env interpPfx).map scan).flatten := by
  constructor
  · cases hjd : env.jupyterDataDir <;> simp [data_search_paths, hjd]
  · rfl

/-- Helper: when the loop body reports a status update, the message was an
iopub status message and the update is its decoded execution state. -/
theorem handle_update_some (m : KernelMessage) (events : List RunCellEvent)
    (s : KernelStatus) (h : handleIopubMessage m = .ok (events, some s)) :
    m.header.msg_type = .status ∧ statusFromValue m.content = some { execution_state := s }
    ∧ events = [] := by
  cases hty : m.header.msg_type <;>
    simp only [handleIopubMessage, hty, intoTyped, Bind.bind, Except.bind] at h
  case status =>
    cases hdec : statusFromValue m.content <;> simp only [hdec] at h
    · simp at h
    · case _ c =>
        obtain ⟨cs⟩ := c
        simp only [pure, Except.pure, Except.ok.injEq, Prod.mk.injEq, Option.some.injEq] at h
        obtain ⟨h1, h2⟩ := h
        subst h2
        exact ⟨rfl, rfl, h1.symm⟩
  case stream =>
    cases hdec : streamFromValue m.content <;> simp only [hdec] at h
    · simp at h
    · split at h <;> simp [pure, Except.pure] at h
  case executeResult =>
    cases hdec : executeResultFromValue m.content <;> simp [hdec, pure, Except.pure] at h
  case displayData =>
    cases hdec : displayDataFromValue m.content <;> simp [hdec, pure, Except.pure] at h
  case updateDisplayData =>
    cases hdec : displayDataFromValue m.content <;> simp [hdec, pure, Except.pure] at h
  case clearOutput =>
    cases hdec : clearOutputFromValue m.content <;> simp [hdec, pure, Except.pure] at h
  case error =>
    cases hdec : errorReplyFromValue m.content <;> simp [hdec, pure, Except.pure] at h
  all_goals simp [pure, Except.pure] at h

/-- Helper: an iopub status message decoding to idle makes the loop body
report the idle update. -/
theorem handle_idle_of_isIdleStatus (m : KernelMessage) (h : isIdleStatus m = true) :
    handleIopubMessage m = .ok ([], some KernelStatus.idle) := by
  simp only [isIdleStatus] at h
  split at h
  · rename_i hc
    simp [handleIopubMessage, hc.1, intoTyped, hc.2, Bind.bind, Except.bind, pure, Except.pure]
  · simp at h

/-- Unfolding equation of the loop at idle status. -/
theorem streamResultsLoop_idle (inputs : List KernelMessage) (closed : Bool) :
    streamResultsLoop .idle inputs closed = ([], .finishedIdle) := by
  rw [streamResultsLoop.eq_def]
  simp

/-- Unfolding equation of the loop at a message that decodes. -/
theorem streamResultsLoop_cons_ok (status : KernelStatus) (m : KernelMessage)
    (rest : List KernelMessage) (closed : Bool) (events : List RunCellEvent)
    (update : Option KernelStatus) (hs : status ≠ .idle)
    (hh : handleIopubMessage m = .ok (events, update)) :
    streamResultsLoop status (m :: rest) closed =
      (events ++ (streamResultsLoop (update.getD status) rest closed).1,
       (streamResultsLoop (update.getD status) rest closed).2) := by
  rw [streamResultsLoop, if_neg hs, hh]
  cases update <;> rfl

/-- Unfolding equation of the loop at a message that fails to decode. -/
theorem streamResultsLoop_cons_error (status : KernelStatus) (m : KernelMessage)
    (rest : List KernelMessage) (closed : Bool) (e : WireError) (hs : status ≠ .idle)
    (hh : handleIopubMessage m = .error e) :
    streamResultsLoop status (m :: rest) closed =
      ([RunCellEvent.disconnect e.toMessage], .disconnected e.toMessage) := by
  rw [streamResultsLoop, if_neg hs, hh]

/-- Helper: termination of the `stream_results_fut` loop is equivalent to the
transport closing or the inputs containing an idle status message or a message
whose content fails to decode. -/
theorem loop_term_iff (status : KernelStatus) (inputs : List KernelMessage) (closed : Bool)
    (hs : status ≠ .idle) :
    ((streamResultsLoop status inputs closed).2 ≠ .waiting) ↔
      (closed = true ∨ ∃ m ∈ inputs, isIdleStatus m = true ∨ decodesOk m = false) := by
  induction inputs generalizing status with
  | nil =>
    rw [streamResultsLoop, if_neg hs]
    cases closed <;> simp
  | cons m rest ih =>
    cases hh : handleIopubMessage m with
    | error e =>
      rw [streamResultsLoop_cons_error status m rest closed e hs hh]
      constructor
      · intro _
        exact Or.inr ⟨m, List.mem_cons_self m rest, Or.inr (by simp [decodesOk, hh])⟩
      · intro _
        simp
    | ok p =>
      obtain ⟨events, update⟩ := p
      have hdok : decodesOk m = true := by simp [decodesOk, hh]
      rw [streamResultsLoop_cons_ok status m rest closed events update hs hh]
      by_cases hnew : update.getD status = .idle
      · have hupd : update = some KernelStatus.idle := by
          cases update with
          | none => exact absurd hnew hs
          | some s2 =>
            have : s2 = KernelStatus.idle := hnew
            rw [this]
        have hmi : isIdleStatus m = true := by
          rw [hupd] at hh
          obtain ⟨h1, h2, h3⟩ := handle_update_some m events .idle hh
          simp [isIdleStatus, h1, h2]
        rw [hnew, streamResultsLoop_idle]
        constructor
        · intro _
          exact Or.inr ⟨m, List.mem_cons_self m rest, Or.inl hmi⟩
        · intro _
          simp
      · have hni : isIdleStatus m = false := by
          cases hii : isIdleStatus m
          · rfl
          · exfalso
            have hx := handle_idle_of_isIdleStatus m hii
            rw [hh] at hx
            simp only [Except.ok.injEq, Prod.mk.injEq] at hx
            apply hnew
            rw [hx.2]
            rfl
        constructor
        · intro ht
          rcases (ih (update.getD status) hnew).mp ht with hc | ⟨m2, hm2, ht2⟩
          · exact Or.inl hc
          · exact Or.inr ⟨m2, List.mem_cons_of_mem m hm2, ht2⟩
        · intro hr
          apply (ih (update.getD status) hnew).mpr
          rcases hr with hc | ⟨m2, hm2, ht2⟩
          · exact Or.inl hc
          · rcases List.mem_cons.mp hm2 with rfl | hm2
            · rcases ht2 with hi | hd
              · rw [hi] at hni
                exact absurd hni (by simp)
              · rw [hd] at hdok
                exact absurd hdok (by simp)
            · exact Or.inr ⟨m2, hm2, ht2⟩

/-- Helper: whenever the loop ends disconnected, the event list ends with the
matching disconnect event. -/
theorem loop_disconnect_last (status : KernelStatus) (inputs : List KernelMessage)
    (closed : Bool) (s : String)
    (h : (streamResultsLoop status inputs closed).2 = .disconnected s) :
    ∃ pre, (streamResultsLoop status inputs closed).1 = pre ++ [RunCellEvent.disconnect s] := by
  induction inputs generalizing status with
  | nil =>
    by_cases hs : status = .idle
    · rw [streamResultsLoop, if_pos hs] at h
      simp at h
    · rw [streamResultsLoop, if_neg hs] at h ⊢
      cases closed with
      | false =>
        have h2 : StreamOutcome.waiting = .disconnected s := h
        simp at h2
      | true =>
        have h2 : StreamOutcome.disconnected
            (WireError.toMessage .kernelDisconnect) = .disconnected s := h
        injection h2 with h3
        exact ⟨[], by rw [← h3]; rfl⟩
  | cons m rest ih =>
    by_cases hs : status = .idle
    · rw [streamResultsLoop, if_pos hs] at h
      simp at h
    · cases hh : handleIopubMessage m with
      | error e =>
        rw [streamResultsLoop_cons_error status m rest closed e hs hh] at h ⊢
        have h2 : StreamOutcome.disconnected (WireError.toMessage e) = .disconnected s := h
        injection h2 with h3
        exact ⟨[], by rw [← h3]; rfl⟩
      | ok p =>
        obtain ⟨events, update⟩ := p
        rw [streamResultsLoop_cons_ok status m rest closed events update hs hh] at h ⊢
        obtain ⟨pre, hpre⟩ := ih (update.getD status) h
        exact ⟨events ++ pre, by simp [hpre]⟩

/-- Claim C6 (amended): the `run_cell` event stream terminates if and only if
the transport closes, an iopub status message carrying idle is observed, or a
message's content fails typed deserialization; and whenever it ends in the
disconnected state, the final emitted event is the matching
`disconnect(message)`. -/
theorem c6_stream_termination (inputs : List KernelMessage) (closed : Bool) :
    ((run_cell_stream inputs closed).2 ≠ .waiting ↔
      closed = true ∨ ∃ m ∈ inputs, isIdleStatus m = true ∨ decodesOk m = false)
    ∧ ∀ s, (run_cell_stream inputs closed).2 = .disconnected s →
        ∃ pre, (run_cell_stream inputs closed).1 = pre ++ [RunCellEvent.disconnect s] := by
  constructor
  · exact loop_term_iff .busy inputs closed (by simp)
  · intro s hdisc
    exact loop_disconnect_last .busy inputs closed s hdisc

/-- Witness for C6 at a concrete input: a closing transport terminates the
stream and the final event is the disconnect message. -/
theorem c6_stream_termination_witness :
    ((run_cell_stream [] true).2 ≠ .waiting)
    ∧ ∃ pre, (run_cell_stream [] true).1 =
        pre ++ [RunCellEvent.disconnect "disconnected from the kernel"] :=
  ⟨(c6_stream_termination [] true).1.mpr (Or.inl rfl),
   (c6_stream_termination [] true).2 "disconnected from the kernel" rfl⟩

/-- A status message whose content does not deserialize as `Status`. -/
def c6BadStatusMsg : KernelMessage :=
  { header := { msg_id := "m-3", session := "s", username := "u", date := "d",
                msg_type := .status, version := "5.4" },
    parent_header := none, content := .obj [], buffers := [] }

/-- Counterexample to C6 as stated: with the transport open and no idle status
message ever observed, the stream still terminates — a status message whose
content fails to deserialize ends it with a disconnect event. -/
theorem c6_counterexample :
    (run_cell_stream [c6BadStatusMsg] false).2 =
      .disconnected "could not deserialize message: invalid content"
    ∧ ¬ (∃ m ∈ [c6BadStatusMsg], isIdleStatus m = true) := by
  constructor
  · rfl
  · simp [isIdleStatus, c6BadStatusMsg, statusFromValue, getField]

/-- Helper: replacing an element after the first hit leaves the position of
the first hit unchanged. -/
theorem position_set_later {α : Type} (p : α → Bool) (l : List α) (i : Nat) (x : α) (d : Nat)
    (hd : position p l = some d) (hdi : d < i) :
    position p (l.set i x) = some d := by
  induction l generalizing d i with
  | nil => simp [position] at hd
  | cons a rest ih =>
    cases i with
    | zero => omega
    | succ i2 =>
      rw [List.set_cons_succ]
      cases hpa : p a with
      | true =>
        rw [position, if_pos hpa] at hd ⊢
        exact hd
      | false =>
        rw [position, if_neg (by simp [hpa])] at hd ⊢
        cases hrest : position p rest with
        | none => rw [hrest] at hd; simp at hd
        | some d2 =>
          rw [hrest] at hd
          simp at hd
          rw [ih i2 d2 hrest (by omega)]
          simp [hd]

/-- Helper: panicking indexing is unaffected by setting a different index. -/
theorem ROpt.idx_set_ne {α : Type} (l : List α) (i j : Nat) (x : α) (hne : i ≠ j) :
    ROpt.idx (l.set i x) j = ROpt.idx l j := by
  unfold ROpt.idx
  by_cases hj : j < l.length
  · rw [dif_pos (by simpa using hj), dif_pos hj, List.getElem_set_ne hne]
  · rw [dif_neg (by simpa using hj), dif_neg hj]

/-- Helper: binding a present lifted value just applies the continuation. -/
theorem ROpt.lift_some_bind {α β : Type} (a : α) (f : α → ROpt β) :
    (ROpt.lift (some a) >>= f) = f a := rfl

/-- Claim C1 (amended): on send, `to_zmq_payload` attaches the hex HMAC
signature computed over header, parent header, metadata, content, and buffer
frames — but on receive `from_zmq_payload` never recomputes or compares it:
the parse result is unchanged when the signature frame (the one after the
delimiter) is replaced by anything, so an altered payload is still
delivered. -/
theorem c1_sign_outbound_ignored_inbound
    (hmacSha256 : List Byte → List Byte → List Byte)
    (msg : KernelMessage) (signing_key : String)
    (payload : List Frame) (d : Nat) (sig : Frame)
    (hd : position (fun f => f == delimFrame) payload = some d) :
    to_zmq_payload hmacSha256 msg signing_key =
      some (delimFrame ::
        utf8Encode (sign_message hmacSha256 signing_key
          ([jsonToVec (headerToValue msg.header), jsonToVec (optHeaderToValue msg.parent_header),
            utf8Encode "\x7b\x7d", jsonToVec msg.content] ++ msg.buffers)) ::
        ([jsonToVec (headerToValue msg.header), jsonToVec (optHeaderToValue msg.parent_header),
          utf8Encode "\x7b\x7d", jsonToVec msg.content] ++ msg.buffers))
    ∧ from_zmq_payload (payload.set (d + 1) sig) = from_zmq_payload payload := by
  constructor
  · rfl
  · have hpos : position (fun f => f == delimFrame) (payload.set (d + 1) sig) = some d :=
      position_set_later _ payload (d + 1) sig d hd (by omega)
    have h2 := ROpt.idx_set_ne payload (d + 1) (d + 2) sig (by omega)
    have h3 := ROpt.idx_set_ne payload (d + 1) (d + 3) sig (by omega)
    have h5 := ROpt.idx_set_ne payload (d + 1) (d + 5) sig (by omega)
    have h6 : (payload.set (d + 1) sig).drop (d + 6) = payload.drop (d + 6) :=
      List.drop_set_of_lt sig payload (by omega)
    simp only [from_zmq_payload, hpos, hd, ROpt.lift_some_bind, h2, h3, h5, h6]

/-- A data-dependent stand-in for HMAC-SHA256 (any byte change to the input
changes the output sum). -/
def c1Hmac : List Byte → List Byte → List Byte :=
  fun key data => [(key.foldl (· + ·) 0 + data.foldl (· + ·) 0) % 256]

/-- A concrete signed message with one buffer. -/
def c1Msg : KernelMessage :=
  { header := { msg_id := "m-4", session := "s", username := "u",
                date := "2024-01-01T00:00:00Z", msg_type := .executeReply, version := "5.4" },
    parent_header := none, content := .obj [], buffers := [[7]] }

/-- The validly signed wire frames of `c1Msg`. -/
def c1Payload : List Frame := (to_zmq_payload c1Hmac c1Msg "key").getD []

/-- Witness for C1 (amended) at the concrete payload: replacing the signature
frame with garbage does not change the parse result. -/
theorem c1_sign_outbound_ignored_inbound_witness :
    to_zmq_payload c1Hmac c1Msg "key" =
      some (delimFrame ::
        utf8Encode (sign_message c1Hmac "key"
          ([jsonToVec (headerToValue c1Msg.header), jsonToVec (optHeaderToValue c1Msg.parent_header),
            utf8Encode "\x7b\x7d", jsonToVec c1Msg.content] ++ c1Msg.buffers)) ::
        ([jsonToVec (headerToValue c1Msg.header), jsonToVec (optHeaderToValue c1Msg.parent_header),
          utf8Encode "\x7b\x7d", jsonToVec c1Msg.content] ++ c1Msg.buffers))
    ∧ from_zmq_payload (c1Payload.set 1 (utf8Encode "bogus")) = from_zmq_payload c1Payload :=
  c1_sign_outbound_ignored_inbound c1Hmac c1Msg "key" c1Payload 0 (utf8Encode "bogus") rfl

/-- Counterexample to C1 as stated: altering a buffer byte of the validly
signed payload (frame 6, byte 7 changed to 8) invalidates the signature —
recomputing it over the altered frames no longer matches the unchanged
signature frame — yet the altered message is parsed and delivered. -/
theorem c1_counterexample :
    from_zmq_payload (c1Payload.set 6 [8]) =
      .ok (some { header := c1Msg.header, parent_header := none,
                  content := .obj [], buffers := [[8]] })
    ∧ (c1Payload.set 6 [8]).drop 2 ≠ c1Payload.drop 2
    ∧ sign_message c1Hmac "key" ((c1Payload.set 6 [8]).drop 2) ≠
        sign_message c1Hmac "key" (c1Payload.drop 2)
    ∧ (c1Payload.set 6 [8]).take 2 = c1Payload.take 2 := by
  refine ⟨by rfl, by decide, by decide, by decide⟩

/-- Helper: a little-endian u64 encoding is eight bytes long. -/
theorem length_u64ToLE8 (n : Nat) : (u64ToLE8 n).length = 8 := rfl

/-- Helper: little-endian round trip below 2^64. -/
theorem leBytes_u64 (n : Nat) (h : n < 2 ^ 64) : leBytesToNat (u64ToLE8 n) = n := by
  norm_num [u64ToLE8, leBytesToNat]
  omega

/-- Helper: the offset table is eight bytes per entry. -/
theorem length_table (offs : List Nat) :
    ((offs.map u64ToLE8).flatten).length = 8 * offs.length := by
  induction offs with
  | nil => rfl
  | cons o rest ih =>
    simp [ih, length_u64ToLE8]
    omega

/-- Helper: slicing is invariant under shifting past a prefix. -/
theorem bytesGetRange_shift (xs ys : List Byte) (a b : Nat) :
    bytesGetRange (xs ++ ys) (xs.length + a) (xs.length + b) = bytesGetRange ys a b := by
  unfold bytesGetRange
  rw [List.length_append]
  by_cases hc : a ≤ b ∧ b ≤ ys.length
  · rw [if_pos (by omega), if_pos hc]
    congr 1
    rw [Nat.add_sub_add_left]
    congr 1
    rw [← List.drop_drop, List.drop_left]
  · rw [if_neg (by omega), if_neg hc]

/-- Helper: slicing an initial segment. -/
theorem bytesGetRange_left (xs ys : List Byte) :
    bytesGetRange (xs ++ ys) 0 xs.length = some xs := by
  unfold bytesGetRange
  rw [if_pos (by simp)]
  simp [List.take_left]

/-- Helper: slicing out a middle segment. -/
theorem bytesGetRange_middle (pre seg suf : List Byte) :
    bytesGetRange (pre ++ seg ++ suf) pre.length (pre.length + seg.length) = some seg := by
  rw [List.append_assoc]
  rw [show pre.length = pre.length + 0 from by omega]
  rw [show pre.length + 0 + seg.length = pre.length + (0 + seg.length) from by omega]
  rw [bytesGetRange_shift]
  rw [show 0 + seg.length = seg.length from by omega]
  exact bytesGetRange_left seg suf

/-- Helper: reading the i-th offset-table entry out of the full payload. -/
theorem table_slice (offs : List Nat) (tail : List Byte) (i : Nat) (hi : i < offs.length) :
    bytesGetRange ((offs.map u64ToLE8).flatten ++ tail) (8 * i) (8 * i + 8) =
      some (u64ToLE8 (offs.get ⟨i, hi⟩)) := by
  induction offs generalizing i with
  | nil => simp at hi
  | cons o rest ih =>
    cases i with
    | zero =>
      simp only [List.map_cons, List.flatten_cons, List.get]
      rw [show (8 : Nat) * 0 = 0 from by omega]
      rw [show (0 : Nat) + 8 = (u64ToLE8 o).length from by rw [length_u64ToLE8]]
      rw [List.append_assoc]
      exact bytesGetRange_left (u64ToLE8 o) _
    | succ i2 =>
      simp only [List.map_cons, List.flatten_cons, List.get]
      rw [List.append_assoc]
      rw [show 8 * (i2 + 1) = (u64ToLE8 o).length + 8 * i2 from by rw [length_u64ToLE8]; omega]
      rw [show (u64ToLE8 o).length + 8 * i2 + 8 = (u64ToLE8 o).length + (8 * i2 + 8) from by omega]
      rw [bytesGetRange_shift]
      exact ih i2 (by simpa using hi)

/-- Helper: the offsets list has one entry per segment. -/
theorem segmentOffsets_length (base : Nat) (segs : List Frame) :
    (segmentOffsets base segs).length = segs.length := by
  induction segs generalizing base with
  | nil => rfl
  | cons s rest ih => simp [segmentOffsets, ih]

/-- Helper: the k-th segment offset is the base plus the length of everything
before segment k. -/
theorem segmentOffsets_get (base : Nat) (segs : List Frame) (k : Nat) (hk : k < segs.length) :
    (segmentOffsets base segs).get ⟨k, by rw [segmentOffsets_length]; exact hk⟩ =
      base + ((segs.take k).flatten).length := by
  induction segs generalizing base k with
  | nil => simp at hk
  | cons s rest ih =>
    cases k with
    | zero => simp [segmentOffsets]
    | succ k2 =>
      simp only [segmentOffsets, List.get, List.take, List.flatten_cons, List.length_append]
      rw [ih (base + s.length) k2 (by simpa using hk)]
      omega

/-- Helper: every segment offset is bounded by the payload end. -/
theorem segmentOffsets_le (base : Nat) (segs : List Frame) (o : Nat)
    (ho : o ∈ segmentOffsets base segs) : o ≤ base + (segs.flatten).length := by
  induction segs generalizing base with
  | nil => simp [segmentOffsets] at ho
  | cons s rest ih =>
    simp only [segmentOffsets, List.mem_cons] at ho
    rcases ho with rfl | ho
    · simp
    · have := ih (base + s.length) ho
      simp only [List.flatten_cons, List.length_append]
      omega

/-- Helper: segment offsets are monotonically non-decreasing. -/
theorem segmentOffsets_chain (base : Nat) (segs : List Frame) :
    List.Chain' (· ≤ ·) (segmentOffsets base segs) := by
  induction segs generalizing base with
  | nil => simp [segmentOffsets]
  | cons s rest ih =>
    cases rest with
    | nil => simp [segmentOffsets]
    | cons s2 rest2 =>
      rw [segmentOffsets, segmentOffsets]
      rw [List.chain'_cons]
      refine ⟨by omega, ?_⟩
      rw [← segmentOffsets]
      exact ih (base + s.length)

/-- Helper: flattening one more segment appends it. -/
theorem take_flatten_succ (segs : List Frame) (k : Nat) (hk : k < segs.length) :
    (segs.take (k + 1)).flatten = (segs.take k).flatten ++ segs.get ⟨k, hk⟩ := by
  induction segs generalizing k with
  | nil => simp at hk
  | cons s rest ih =>
    cases k with
    | zero => simp
    | succ k2 =>
      simp only [List.take_succ_cons, List.flatten_cons, List.get]
      rw [ih k2 (by simpa using hk)]
      simp [List.append_assoc]

/-- Helper: slicing between consecutive segment boundaries recovers the
segment. -/
theorem ws_slice (pre : List Byte) (segs : List Frame) (k : Nat) (hk : k < segs.length) :
    bytesGetRange (pre ++ segs.flatten) (pre.length + ((segs.take k).flatten).length)
      (pre.length + ((segs.take (k + 1)).flatten).length) = some (segs.get ⟨k, hk⟩) := by
  have hdecomp : segs.flatten =
      (segs.take k).flatten ++ (segs.get ⟨k, hk⟩ ++ (segs.drop (k + 1)).flatten) := by
    conv_lhs => rw [← List.take_append_drop (k + 1) segs]
    rw [List.flatten_append, take_flatten_succ segs k hk, List.append_assoc]
  have hx : (pre ++ (segs.take k).flatten).length + 0 =
      pre.length + ((segs.take k).flatten).length := by simp
  have hy : (pre ++ (segs.take k).flatten).length + (segs.get ⟨k, hk⟩).length =
      pre.length + ((segs.take k).flatten ++ segs.get ⟨k, hk⟩).length := by
    simp
    omega
  rw [take_flatten_succ segs k hk, hdecomp, ← List.append_assoc, ← hx, ← hy,
    bytesGetRange_shift]
  have := bytesGetRange_left (segs.get ⟨k, hk⟩) ((segs.drop (k + 1)).flatten)
  simpa using this

/-- Helper: entries of the decode-side offsets vector (segment offsets plus
the synthesized payload length). -/
theorem offList_getElem (base : Nat) (segs : List Frame) (k : Nat) (hk : k ≤ segs.length) :
    (segmentOffsets base segs ++ [base + (segs.flatten).length])[k]? =
      some (base + ((segs.take k).flatten).length) := by
  induction segs generalizing base k with
  | nil =>
    have hk0 : k = 0 := by simpa using hk
    subst hk0
    simp [segmentOffsets]
  | cons s rest ih =>
    cases k with
    | zero =>
      simp [show segmentOffsets base (s :: rest) =
        base :: segmentOffsets (base + s.length) rest from rfl]
    | succ k2 =>
      rw [show segmentOffsets base (s :: rest) =
        base :: segmentOffsets (base + s.length) rest from rfl,
        List.cons_append, List.getElem?_cons_succ]
      have hk2 : k2 ≤ rest.length := by simpa using hk
      rw [show base + ((s :: rest).flatten).length =
        base + s.length + (rest.flatten).length from by simp; omega]
      rw [ih (base + s.length) k2 hk2]
      simp
      omega

/-- Helper: panicking indexing at a present optional element. -/
theorem ROpt.idx_eq_some {α : Type} {l : List α} {i : Nat} {a : α} (h : l[i]? = some a) :
    ROpt.idx l i = ROpt.pure a := by
  by_cases hi : i < l.length
  · unfold ROpt.idx
    rw [dif_pos hi]
    rw [List.getElem?_eq_getElem hi] at h
    injection h with h2
    rw [h2]
    rfl
  · rw [List.getElem?_eq_none (by omega)] at h
    cases h

/-- Helper: binding a present ok value applies the continuation. -/
theorem ROpt.pure_bind {α β : Type} (a : α) (f : α → ROpt β) :
    (ROpt.pure a : ROpt α) >>= f = f a := rfl

/-- Helper: the offset-reading loop returns the table entries after the
count. -/
theorem readWsOffsets_spec (offsList : List Nat) (tail : List Byte) (i count : Nat)
    (hlen : i + count < offsList.length)
    (hb : ∀ x ∈ offsList, x < 2 ^ 64) :
    readWsOffsets ((offsList.map u64ToLE8).flatten ++ tail) i count =
      some ((offsList.drop (i + 1)).take count) := by
  induction count generalizing i with
  | zero => simp [readWsOffsets]
  | succ c ih =>
    rw [readWsOffsets]
    have hi1 : i + 1 < offsList.length := by omega
    rw [table_slice offsList tail (i + 1) hi1]
    rw [ih (i + 1) (by omega)]
    simp only [Option.bind_eq_bind, Option.some_bind]
    rw [leBytes_u64 _ (hb _ (offsList.get_mem (i + 1) hi1))]
    rw [List.drop_eq_getElem_cons hi1, List.take_succ_cons]
    simp [List.get_eq_getElem]

/-- Helper: the buffer-reading loop returns the trailing segments. -/
theorem readWsBuffers_spec (pre : List Byte) (segs : List Frame) (k count : Nat)
    (hkc : k + count = segs.length) :
    readWsBuffers (pre ++ segs.flatten)
      (segmentOffsets pre.length segs ++ [pre.length + (segs.flatten).length]) k count =
      ROpt.pure (segs.drop k) := by
  induction count generalizing k with
  | zero =>
    rw [readWsBuffers, List.drop_eq_nil_of_le (by omega)]
  | succ c ih =>
    have hk : k < segs.length := by omega
    rw [readWsBuffers]
    rw [ROpt.idx_eq_some (offList_getElem pre.length segs k (by omega))]
    rw [ROpt.pure_bind]
    rw [ROpt.idx_eq_some (offList_getElem pre.length segs (k + 1) (by omega))]
    rw [ROpt.pure_bind]
    rw [ws_slice pre segs k hk]
    rw [show ROpt.lift (some (segs.get ⟨k, hk⟩)) >>= (fun buf =>
        readWsBuffers (pre ++ segs.flatten)
          (segmentOffsets pre.length segs ++ [pre.length + (segs.flatten).length]) (k + 1) c >>=
        fun rest => ROpt.pure (buf :: rest)) =
      (readWsBuffers (pre ++ segs.flatten)
          (segmentOffsets pre.length segs ++ [pre.length + (segs.flatten).length]) (k + 1) c >>=
        fun rest => ROpt.pure (segs.get ⟨k, hk⟩ :: rest)) from rfl]
    rw [ih (k + 1) (by omega)]
    rw [ROpt.pure_bind]
    rw [List.drop_eq_getElem_cons hk]
    rfl

/-- Helper: deserializing a serialized header recovers it up to the msg_type
canonicalization. -/
theorem headerFromValue_toValue (h : KernelHeader) :
    headerFromValue (headerToValue h) =
      some { h with msg_type := msgTypeFromString (msgTypeToString h.msg_type) } := rfl

/-- Helper: parent-header serialization round trip, given a canonical
msg_type. -/
theorem optHeaderFromValue_toValue (p : Option KernelHeader)
    (hp : ∀ h, p = some h → msgTypeFromString (msgTypeToString h.msg_type) = h.msg_type) :
    optHeaderFromValue (optHeaderToValue p) = some p := by
  cases p with
  | none => rfl
  | some h =>
    have hmt := hp h rfl
    rw [show optHeaderToValue (some h) = headerToValue h from rfl]
    rw [show optHeaderFromValue (headerToValue h) =
      (headerFromValue (headerToValue h)).map some from rfl]
    rw [headerFromValue_toValue, hmt]
    rfl

/-- Claim C5 (amended): the WS framing round trip.  Decoding an encoded
message returns the original message and channel, provided the payload is
shorter than 2^64, the external codecs (UTF-8 and `serde_json`) invert on this
message's serialized components, and the message-type tags of header and
parent header are canonical (not an `Other` string that collides with a
recognized tag).  The offset-table entries are monotonically non-decreasing
and bounded by the payload length, unconditionally. -/
theorem c5_ws_roundtrip (msg : KernelMessage) (channel : String)
    (hsize : 8 * ((wsSegments msg channel).length + 1) +
        ((wsSegments msg channel).flatten).length < 2 ^ 64)
    (hch : utf8Decode (utf8Encode channel) = some channel)
    (hhj : jsonFromSlice (jsonToVec (headerToValue msg.header)) = some (headerToValue msg.header))
    (hpj : jsonFromSlice (jsonToVec (optHeaderToValue msg.parent_header)) =
        some (optHeaderToValue msg.parent_header))
    (hcj : jsonFromSlice (jsonToVec msg.content) = some msg.content)
    (hmt : msgTypeFromString (msgTypeToString msg.header.msg_type) = msg.header.msg_type)
    (hpt : ∀ h, msg.parent_header = some h →
        msgTypeFromString (msgTypeToString h.msg_type) = h.msg_type) :
    (∀ full, to_ws_payload msg channel = some full →
        from_ws_payload full = .ok (some (msg, channel)))
    ∧ List.Chain' (· ≤ ·)
        (segmentOffsets (8 * ((wsSegments msg channel).length + 1)) (wsSegments msg channel))
    ∧ ∀ o ∈ segmentOffsets (8 * ((wsSegments msg channel).length + 1)) (wsSegments msg channel),
        o ≤ 8 * ((wsSegments msg channel).length + 1) +
          ((wsSegments msg channel).flatten).length := by
  refine ⟨?_, segmentOffsets_chain _ _, fun o ho => segmentOffsets_le _ _ o ho⟩
  intro full hfull
  rw [show to_ws_payload msg channel = some
      ((((5 + msg.buffers.length) :: segmentOffsets (8 * (5 + msg.buffers.length + 1))
        (wsSegments msg channel)).map u64ToLE8).flatten ++ (wsSegments msg channel).flatten)
    from rfl] at hfull
  injection hfull with hfull2
  subst hfull2
  have hN : (wsSegments msg channel).length = 5 + msg.buffers.length := by
    simp [wsSegments]
    omega
  have htableLen : ((((5 + msg.buffers.length) :: segmentOffsets
      (8 * (5 + msg.buffers.length + 1)) (wsSegments msg channel)).map u64ToLE8).flatten).length
      = 8 * (5 + msg.buffers.length + 1) := by
    rw [length_table]
    simp only [List.length_cons, segmentOffsets_length, hN]
  have hb : ∀ x ∈ (5 + msg.buffers.length) :: segmentOffsets
      (8 * (5 + msg.buffers.length + 1)) (wsSegments msg channel), x < 2 ^ 64 := by
    intro x hx
    rcases List.mem_cons.mp hx with rfl | hx
    · omega
    · have := segmentOffsets_le _ _ x hx
      omega
  have ha : bytesGetRange ((((5 + msg.buffers.length) :: segmentOffsets
      (8 * (5 + msg.buffers.length + 1)) (wsSegments msg channel)).map u64ToLE8).flatten ++
      (wsSegments msg channel).flatten) 0 8 = some (u64ToLE8 (5 + msg.buffers.length)) := by
    have := table_slice ((5 + msg.buffers.length) :: segmentOffsets
      (8 * (5 + msg.buffers.length + 1)) (wsSegments msg channel))
      ((wsSegments msg channel).flatten) 0 (by simp)
    simpa using this
  have hbN : leBytesToNat (u64ToLE8 (5 + msg.buffers.length)) = 5 + msg.buffers.length :=
    leBytes_u64 _ (by omega)
  have hc : readWsOffsets ((((5 + msg.buffers.length) :: segmentOffsets
      (8 * (5 + msg.buffers.length + 1)) (wsSegments msg channel)).map u64ToLE8).flatten ++
      (wsSegments msg channel).flatten) 0 (5 + msg.buffers.length) =
      some (segmentOffsets (8 * (5 + msg.buffers.length + 1)) (wsSegments msg channel)) := by
    rw [readWsOffsets_spec ((5 + msg.buffers.length) :: segmentOffsets
      (8 * (5 + msg.buffers.length + 1)) (wsSegments msg channel))
      ((wsSegments msg channel).flatten) 0 (5 + msg.buffers.length)
      (by simp only [List.length_cons, segmentOffsets_length, hN]; omega) hb]
    congr 1
    rw [show ((5 + msg.buffers.length) :: segmentOffsets (8 * (5 + msg.buffers.length + 1))
      (wsSegments msg channel)).drop (0 + 1) = segmentOffsets
      (8 * (5 + msg.buffers.length + 1)) (wsSegments msg channel) from rfl]
    exact List.take_of_length_le (by rw [segmentOffsets_length, hN])
  have hElen : (((((5 + msg.buffers.length) :: segmentOffsets
      (8 * (5 + msg.buffers.length + 1)) (wsSegments msg channel)).map u64ToLE8).flatten ++
      (wsSegments msg channel).flatten)).length
      = 8 * (5 + msg.buffers.length + 1) + ((wsSegments msg channel).flatten).length := by
    rw [List.length_append, htableLen]
  have hidx : ∀ k : Nat, k ≤ 5 + msg.buffers.length →
      ROpt.idx (segmentOffsets (8 * (5 + msg.buffers.length + 1)) (wsSegments msg channel) ++
        [8 * (5 + msg.buffers.length + 1) + ((wsSegments msg channel).flatten).length]) k =
      ROpt.pure (8 * (5 + msg.buffers.length + 1) +
        (((wsSegments msg channel).take k).flatten).length) := by
    intro k hk
    exact ROpt.idx_eq_some (offList_getElem _ _ k (by omega))
  have hidx0 := hidx 0 (by omega)
  have hidx1 := hidx 1 (by omega)
  have hidx2 := hidx 2 (by omega)
  have hidx3 := hidx 3 (by omega)
  have hidx4 := hidx 4 (by omega)
  have hidx5 := hidx 5 (by omega)
  have hslice : ∀ (k : Nat) (hk : k < (wsSegments msg channel).length) (v : Frame),
      (wsSegments msg channel).get ⟨k, hk⟩ = v →
      bytesGetRange ((((5 + msg.buffers.length) :: segmentOffsets
        (8 * (5 + msg.buffers.length + 1)) (wsSegments msg channel)).map u64ToLE8).flatten ++
        (wsSegments msg channel).flatten)
        (8 * (5 + msg.buffers.length + 1) + (((wsSegments msg channel).take k).flatten).length)
        (8 * (5 + msg.buffers.length + 1) +
          (((wsSegments msg channel).take (k + 1)).flatten).length)
      = some v := by
    intro k hk v hv
    have := ws_slice ((((5 + msg.buffers.length) :: segmentOffsets
      (8 * (5 + msg.buffers.length + 1)) (wsSegments msg channel)).map u64ToLE8).flatten)
      (wsSegments msg channel) k hk
    rw [htableLen] at this
    rw [this, hv]
  have hs0 := hslice 0 (by rw [hN]; omega) (utf8Encode channel) rfl
  have hs1 := hslice 1 (by rw [hN]; omega) (jsonToVec (headerToValue msg.header)) rfl
  have hs2 := hslice 2 (by rw [hN]; omega) (jsonToVec (optHeaderToValue msg.parent_header)) rfl
  have hs4 := hslice 4 (by rw [hN]; omega) (jsonToVec msg.content) rfl
  have hhdr : headerFromValue (headerToValue msg.header) = some msg.header := by
    rw [headerFromValue_toValue, hmt]
  have hopt : optHeaderFromValue (optHeaderToValue msg.parent_header) = some msg.parent_header :=
    optHeaderFromValue_toValue _ hpt
  have hbufs : readWsBuffers ((((5 + msg.buffers.length) :: segmentOffsets
      (8 * (5 + msg.buffers.length + 1)) (wsSegments msg channel)).map u64ToLE8).flatten ++
      (wsSegments msg channel).flatten)
      (segmentOffsets (8 * (5 + msg.buffers.length + 1)) (wsSegments msg channel) ++
        [8 * (5 + msg.buffers.length + 1) + ((wsSegments msg channel).flatten).length])
      5 (5 + msg.buffers.length - 5) = ROpt.pure msg.buffers := by
    have := readWsBuffers_spec ((((5 + msg.buffers.length) :: segmentOffsets
      (8 * (5 + msg.buffers.length + 1)) (wsSegments msg channel)).map u64ToLE8).flatten)
      (wsSegments msg channel) 5 (5 + msg.buffers.length - 5) (by omega)
    rw [htableLen] at this
    exact this
  simp only [from_ws_payload, ha, ROpt.lift_some_bind, hbN, hc, hElen, hidx0, hidx1, hidx2,
    hidx3, hidx4, hidx5, ROpt.pure_bind, hs0, hs1, hs2, hs4, Option.some_bind, hch, hhj, hpj,
    hcj, hhdr, hopt, hbufs]
  rfl

/-- A concrete message with a parent header and one buffer. -/
def c5Msg : KernelMessage :=
  { header := { msg_id := "m-5", session := "s", username := "u",
                date := "2024-01-01T00:00:00Z", msg_type := .executeResult, version := "5.4" },
    parent_header := some { msg_id := "m-0", session := "s", username := "u",
                            date := "2024-01-01T00:00:00Z", msg_type := .executeRequest,
                            version := "5.4" },
    content := .obj [("a", .int 1)], buffers := [[1, 2]] }

/-- Witness for C5 (amended) at a concrete message and channel. -/
theorem c5_ws_roundtrip_witness :
    (∀ full, to_ws_payload c5Msg "shell" = some full →
        from_ws_payload full = .ok (some (c5Msg, "shell")))
    ∧ List.Chain' (· ≤ ·)
        (segmentOffsets (8 * ((wsSegments c5Msg "shell").length + 1)) (wsSegments c5Msg "shell"))
    ∧ ∀ o ∈ segmentOffsets (8 * ((wsSegments c5Msg "shell").length + 1))
        (wsSegments c5Msg "shell"),
        o ≤ 8 * ((wsSegments c5Msg "shell").length + 1) +
          ((wsSegments c5Msg "shell").flatten).length :=
  c5_ws_roundtrip c5Msg "shell" (by decide) rfl rfl rfl rfl rfl
    (by intro h hh; cases hh; rfl)

/-- A message whose header msg_type is the untagged variant carrying a
recognized tag string. -/
def c5BadMsg : KernelMessage :=
  { header := { msg_id := "m-6", session := "s", username := "u",
                date := "2024-01-01T00:00:00Z", msg_type := .other "status", version := "5.4" },
    parent_header := none, content := .obj [], buffers := [] }

/-- Projection used to compare decode results by their header msg_type. -/
def wsResultMsgType : ROpt (KernelMessage × String) → Option KernelMessageType
  | .ok (some (msg, _)) => some msg.header.msg_type
  | _ => none

/-- Counterexample to C5 as stated: `KernelMessageType.Other "status"`
serializes to the plain tag `"status"`, which deserializes to `Status`, so
the WS round trip returns a different message than the one encoded. -/
theorem c5_counterexample :
    from_ws_payload ((to_ws_payload c5BadMsg "shell").getD []) =
      .ok (some ({ c5BadMsg with
        header := { c5BadMsg.header with msg_type := .status } }, "shell"))
    ∧ c5BadMsg.header.msg_type = .other "status"
    ∧ KernelMessageType.status ≠ .other "status"
    ∧ from_ws_payload ((to_ws_payload c5BadMsg "shell").getD []) ≠
        .ok (some (c5BadMsg, "shell")) := by
  refine ⟨by rfl, rfl, by decide, ?_⟩
  intro hcontra
  have h1 : wsResultMsgType (from_ws_payload ((to_ws_payload c5BadMsg "shell").getD [])) =
      some .status := by rfl
  rw [hcontra] at h1
  have h2 : wsResultMsgType (.ok (some (c5BadMsg, "shell"))) = some (.other "status") := rfl
  rw [h2] at h1
  exact absurd h1 (by decide)

end Jute
